import Mathlib

/-!
Verification of `net/ipv6/output_core.c` (IPv6 output-core helpers):
identifier generation (`__ipv6_select_ident`, `ipv6_proxy_select_ident`),
the extension-header walk (`ip6_find_1stfragopt`) and the output
finalizer (`__ip6_local_out`), shallowly embedded in Lean.

Machine integers are modelled as `Nat`/`Int` with explicit reductions
where the C code truncates (`% 256` for `u8` memory reads, `% 65536`
for the 16-bit payload-length store).
-/

namespace OutputCore

/-- `IPV6_MAXPLEN`: maximum value of the 16-bit payload-length field. -/
def IPV6_MAXPLEN : Nat := 65535

/-- `EINVAL` errno value; the C code returns `-EINVAL`. -/
def EINVAL : Nat := 22

/-- `NEXTHDR_HOP`: hop-by-hop options header type. -/
def NEXTHDR_HOP : Nat := 0

/-- `NEXTHDR_ROUTING`: routing header type. -/
def NEXTHDR_ROUTING : Nat := 43

/-- `NEXTHDR_DEST`: destination options header type. -/
def NEXTHDR_DEST : Nat := 60

/-- `sizeof(struct ipv6hdr)`: the fixed IPv6 base header is 40 bytes. -/
def sizeof_ipv6hdr : Nat := 40

/-- `sizeof(struct ipv6_opt_hdr)`: two bytes (`nexthdr` and `hdrlen`). -/
def sizeof_ipv6_opt_hdr : Nat := 2

/-- The captured network-layer region of a packet, as in
`ip6_find_1stfragopt`: the bytes from `skb_network_header(skb)` up to
`skb_tail_pointer(skb)`. -/
structure Pkt where
  bytes : List Nat
deriving Repr

/-- `skb_tail_pointer(skb) - skb_network_header(skb)`: the captured
length of the network-layer region. -/
def packet_len (p : Pkt) : Nat := p.bytes.length

/-- Byte read at `i` relative to `skb_network_header(skb)`.  Memory
holds `u8` values, hence the `% 256`; out-of-range reads (which the C
code never performs on the paths we verify) yield 0. -/
def byteAt (p : Pkt) (i : Nat) : Nat := p.bytes.getD i 0 % 256

/-- `ipv6_optlen(hdr) = ((hdr->hdrlen + 1) << 3)`: real byte length of
an extension header from its length-in-8-byte-units field. -/
def ipv6_optlen (hdrlen : Nat) : Nat := (hdrlen + 1) * 8

/-- The walker's structured failures: `MalformedChain` for the two
bounds checks against the captured length, `LengthOverflow` for the
`IPV6_MAXPLEN` check.  The C function erases both to `-EINVAL`. -/
inductive WalkError where
  | MalformedChain
  | LengthOverflow
deriving DecidableEq, Repr

/-- Outcome of one iteration of the `while` loop of
`ip6_find_1stfragopt`: return an offset, fail, or iterate again with a
new header type, routing flag and offset. -/
inductive StepOut where
  | ret (offset : Nat)
  | fail (e : WalkError)
  | next (nexthdr : Nat) (found_rhdr : Bool) (offset : Nat)
deriving DecidableEq, Repr

/-- The tail of the loop body of `ip6_find_1stfragopt` after the
`switch` has decided to keep walking (`break` in C): bounds-check the
two-byte option-header prefix against `packet_len`, compute
`len = ipv6_optlen(exthdr)`, check `len + offset >= IPV6_MAXPLEN`, and
advance to `exthdr->nexthdr` (the byte at `offset`) and `offset + len`. -/
def advance (p : Pkt) (found_rhdr : Bool) (offset : Nat) : StepOut :=
  if offset + sizeof_ipv6_opt_hdr > packet_len p then .fail .MalformedChain
  else if ipv6_optlen (byteAt p (offset + 1)) + offset ≥ IPV6_MAXPLEN then
    .fail .LengthOverflow
  else .next (byteAt p offset) found_rhdr (offset + ipv6_optlen (byteAt p (offset + 1)))

/-- One iteration of the `while (offset <= packet_len)` loop of
`ip6_find_1stfragopt`, including the loop guard and the `switch` on
`**nexthdr`.

The destination-options case guards on `hao offset`, which stands for
`ipv6_find_tlv(skb, offset, IPV6_TLV_HAO) >= 0` under
`CONFIG_IPV6_MIP6`.  `ipv6_find_tlv` lives outside this excerpt, so it
is abstracted as a predicate parameter; the spec describes it as
"the header contains a specific home-address option", and the claims
considered here only constrain chains where it is absent (false). -/
def loopBody (hao : Nat → Bool) (p : Pkt) (nexthdr : Nat)
    (found_rhdr : Bool) (offset : Nat) : StepOut :=
  if offset ≤ packet_len p then
    if nexthdr = NEXTHDR_HOP then advance p found_rhdr offset
    else if nexthdr = NEXTHDR_ROUTING then advance p true offset
    else if nexthdr = NEXTHDR_DEST then
      if hao offset then advance p found_rhdr offset
      else if found_rhdr then .ret offset
      else advance p found_rhdr offset
    else .ret offset
  else .fail .MalformedChain

/-- The `while` loop of `ip6_find_1stfragopt`, expressed as a
well-founded recursion on the remaining captured bytes: iterate
`loopBody` until it returns or fails.  Falling out of the loop
(`offset > packet_len`) is the loop guard's `MalformedChain` outcome
inside `loopBody`. -/
def walkFrom (hao : Nat → Bool) (p : Pkt) (nexthdr : Nat)
    (found_rhdr : Bool) (offset : Nat) : Except WalkError Nat :=
  match h : loopBody hao p nexthdr found_rhdr offset with
  | .ret o => .ok o
  | .fail e => .error e
  | .next nh2 fr2 off2 => walkFrom hao p nh2 fr2 off2
termination_by packet_len p + 1 - offset
decreasing_by
  unfold loopBody advance at h
  have h8 : (8 : Nat) ≤ ipv6_optlen (byteAt p (offset + 1)) := by
    unfold ipv6_optlen; omega
  repeat' split at h
  all_goals injection h
  all_goals omega

/-- `ip6_find_1stfragopt(skb, nexthdr)`: start at
`offset = sizeof(struct ipv6hdr)` with the base header's `nexthdr`
field (byte 6 of the base header) as the initial type, and erase both
structured failures to `-EINVAL`, exactly as the C function does. -/
def ip6_find_1stfragopt (hao : Nat → Bool) (p : Pkt) : Int :=
  match walkFrom hao p (byteAt p 6) false sizeof_ipv6hdr with
  | .ok off => (off : Int)
  | .error _ => -(EINVAL : Int)

/-- Fuel-indexed version of the loop: runs at most `fuel` iterations.
Used to show the walk terminates within a bounded number of steps. -/
def walkFuel (hao : Nat → Bool) (p : Pkt) :
    Nat → Nat → Bool → Nat → Except WalkError Nat
  | 0, _, _, _ => .error .MalformedChain
  | fuel + 1, nexthdr, found_rhdr, offset =>
    match loopBody hao p nexthdr found_rhdr offset with
    | .ret o => .ok o
    | .fail e => .error e
    | .next nh2 fr2 off2 => walkFuel hao p fuel nh2 fr2 off2

/-! ## Identifier generation (`__ipv6_select_ident` and callers) -/

/-- The slice of `struct net` used here: `net->ipv4.ip_id_key`, the
per-namespace 128-bit siphash key, as a natural number; all-zero bytes
(the "unset" state at namespace creation) is the value 0. -/
structure Net where
  ip_id_key : Nat
deriving DecidableEq, Repr

/-- `siphash_key_is_zero`: the key's bytes are all zero. -/
def siphash_key_is_zero (k : Nat) : Bool := k == 0

/-- The environment of one `__ipv6_select_ident` call, abstracting the
three externals the excerpt calls into:
* `randomKey` — the bytes `get_random_bytes` would deliver on this call;
* `siphash combined key` — the keyed hash of the `{dst, src}` buffer;
* `reserve hash segs` — `ip_idents_reserve`, the striped-counter
  allocator (defined in the IPv4 core, outside this excerpt), returning
  a 32-bit value.
None of these is defined in the excerpt; the claims proved below hold
for every choice of them. -/
structure IdentOracle where
  randomKey : Nat
  siphash : Nat × Nat → Nat → Nat
  reserve : Nat → Nat → Nat

/-- `__ipv6_select_ident(net, dst, src)`: lazily fill the namespace key
if it is still all-zero, hash the `{dst, src}` pair with it, reserve one
identifier from the allocator, and map a returned 0 to `1 << 31`
(`2 ^ 31` as a `u32`).  Returns the identifier and the (possibly
updated) namespace state. -/
def __ipv6_select_ident (env : IdentOracle) (net : Net) (dst src : Nat) :
    Nat × Net :=
  let net2 := if siphash_key_is_zero net.ip_id_key then
      { net with ip_id_key := env.randomKey }
    else net
  let hash := env.siphash (dst, src) net2.ip_id_key
  let id := env.reserve hash 1
  (if id = 0 then 2 ^ 31 else id, net2)

/-- Iterate a sequence of identifier-generation calls (each with its own
oracle and address pair) over the namespace state. -/
def runIdents (calls : List (IdentOracle × Nat × Nat)) (net : Net) : Net :=
  calls.foldl (fun n c => (__ipv6_select_ident c.1 n c.2.1 c.2.2).2) net

/-- `offsetof(struct ipv6hdr, saddr)`: the source address starts at
byte 8 of the base header, immediately followed by the destination
address (16 bytes each). -/
def saddr_off : Nat := 8

/-- The slice of the skb used by `ipv6_proxy_select_ident`: the linear
packet bytes (so `bytes.length` is the readable length), the network
header offset, and `skb_shinfo(skb)->ip6_frag_id` (kept as the logical
32-bit value; `htonl` is a representation detail). -/
structure SkbProxy where
  bytes : List Nat
  network_offset : Nat
  ip6_frag_id : Nat
deriving DecidableEq, Repr

/-- `skb_header_pointer(skb, offset, size, buf)`: a readable view of
`size` bytes at `offset`, or `none` (NULL) when the captured bytes do
not cover that region. -/
def skb_header_pointer (skb : SkbProxy) (offset size : Nat) :
    Option (List Nat) :=
  if offset + size ≤ skb.bytes.length then
    some ((skb.bytes.drop offset).take size)
  else none

/-- A 16-byte `struct in6_addr` read big-endian as a natural number. -/
def addrOfBytes (l : List Nat) : Nat :=
  l.foldl (fun acc b => acc * 256 + b % 256) 0

/-- `ipv6_proxy_select_ident(net, skb)`: read the two consecutive
addresses at `network_offset + offsetof(ipv6hdr, saddr)`; on failure
return with nothing changed, otherwise generate an identifier with
`dst = addrs[1]`, `src = addrs[0]` and store it in `ip6_frag_id`. -/
def ipv6_proxy_select_ident (env : IdentOracle) (net : Net)
    (skb : SkbProxy) : Net × SkbProxy :=
  match skb_header_pointer skb (skb.network_offset + saddr_off) 32 with
  | none => (net, skb)
  | some buf =>
    let saddr := addrOfBytes (buf.take 16)
    let daddr := addrOfBytes (buf.drop 16)
    let r := __ipv6_select_ident env net daddr saddr
    (r.2, { skb with ip6_frag_id := r.1 })

/-! ## Output finalizer (`__ip6_local_out`) -/

/-- `ETH_P_IPV6`. -/
def ETH_P_IPV6 : Nat := 0x86DD

/-- The slice of the skb used by `__ip6_local_out`: `skb->len` (u32),
the base header's 16-bit `payload_len` field, `IP6CB(skb)->nhoff` and
`skb->protocol` (the last two as logical values; `htons` is a
representation detail). -/
structure Skb6 where
  len : Nat
  payload_len : Nat
  nhoff : Nat
  protocol : Nat
deriving DecidableEq, Repr

/-- Two's-complement reading of a value as a 32-bit signed `int`: the
low 32 bits, interpreted as negative when bit 31 is set.  This is what
the C conversion to `int` does on the kernel's targets. -/
def toInt32 (x : Nat) : Int :=
  if x % 2 ^ 32 < 2 ^ 31 then ((x % 2 ^ 32 : Nat) : Int)
  else ((x % 2 ^ 32 : Nat) : Int) - 2 ^ 32

/-- The field updates of `__ip6_local_out(skb)`: `int len = skb->len -
sizeof(struct ipv6hdr)` — an unsigned subtraction whose result is
converted to a 32-bit signed `int`, so it wraps negative both for
`skb->len < 40` and for `skb->len - 40 > INT_MAX` (modelled by adding
`2 ^ 32` before `toInt32`); clamp to 0 when `len > IPV6_MAXPLEN`; store
in the 16-bit `payload_len` field (`htons` keeps the low 16 bits,
`Int.emod` on the possibly negative value); record
`offsetof(struct ipv6hdr, nexthdr) = 6` in `nhoff` and set the protocol
tag.  The subsequent `nf_hook` call is external; its verdict is
abstracted by `hook`, and the function returns that verdict together
with the updated packet. -/
def __ip6_local_out (hook : Skb6 → Int) (skb : Skb6) : Int × Skb6 :=
  let len : Int := toInt32 (skb.len + 2 ^ 32 - sizeof_ipv6hdr)
  let len2 : Int := if len > (IPV6_MAXPLEN : Int) then 0 else len
  let skb2 : Skb6 := { skb with
    payload_len := (len2 % (65536 : Int)).toNat
    nhoff := 6
    protocol := ETH_P_IPV6 }
  (hook skb2, skb2)

/-! ## General lemmas about the walker -/

/-- Memory reads are `u8` values. -/
theorem byteAt_lt (p : Pkt) (i : Nat) : byteAt p i < 256 :=
  Nat.mod_lt _ (by omega)

/-- `ipv6_optlen` of a `u8` length field is at most `(255 + 1) * 8`. -/
theorem ipv6_optlen_byte_le (p : Pkt) (i : Nat) :
    ipv6_optlen (byteAt p i) ≤ 2048 := by
  have := byteAt_lt p i
  unfold ipv6_optlen
  omega

/-- A declared length of 0 still maps to the 8-byte minimum: real
header lengths are never below 8. -/
theorem ipv6_optlen_ge (b : Nat) : 8 ≤ ipv6_optlen b := by
  unfold ipv6_optlen; omega

/-- Real header lengths are multiples of 8. -/
theorem ipv6_optlen_mod8 (b : Nat) : ipv6_optlen b % 8 = 0 := by
  unfold ipv6_optlen
  omega

/-- A continuing step advances the offset by at least 8 bytes. -/
theorem advance_next_ge {p : Pkt} {fr fr2 : Bool} {off nh2 off2 : Nat}
    (h : advance p fr off = .next nh2 fr2 off2) : off + 8 ≤ off2 := by
  unfold advance at h
  have h8 := ipv6_optlen_ge (byteAt p (off + 1))
  split at h
  · exact absurd h (by simp)
  · split at h
    · exact absurd h (by simp)
    · injection h; omega

/-- A continuing loop iteration strictly increases the offset (by at
least 8) and only happens while the loop guard holds. -/
theorem loopBody_next_ge {hao : Nat → Bool} {p : Pkt} {nh : Nat}
    {fr fr2 : Bool} {off nh2 off2 : Nat}
    (h : loopBody hao p nh fr off = .next nh2 fr2 off2) :
    off + 8 ≤ off2 ∧ off ≤ packet_len p := by
  unfold loopBody at h
  split at h
  · rename_i hle
    refine ⟨?_, hle⟩
    split at h
    · exact advance_next_ge h
    · split at h
      · exact advance_next_ge h
      · split at h
        · split at h
          · exact advance_next_ge h
          · split at h
            · exact absurd h (by simp)
            · exact advance_next_ge h
        · exact absurd h (by simp)
  · exact absurd h (by simp)

/-- Unfolding `walkFrom` on a continuing iteration. -/
theorem walkFrom_next (hao : Nat → Bool) (p : Pkt) {nh : Nat} {fr : Bool}
    {off nh2 : Nat} {fr2 : Bool} {off2 : Nat}
    (h : loopBody hao p nh fr off = .next nh2 fr2 off2) :
    walkFrom hao p nh fr off = walkFrom hao p nh2 fr2 off2 := by
  rw [walkFrom]
  split
  · rename_i o ho; rw [ho] at h; exact absurd h (by simp)
  · rename_i e he; rw [he] at h; exact absurd h (by simp)
  · rename_i a b c hc; rw [hc] at h
    injection h with h1 h2 h3
    rw [h1, h2, h3]

/-- Unfolding `walkFrom` on a returning iteration. -/
theorem walkFrom_ret (hao : Nat → Bool) (p : Pkt) {nh : Nat} {fr : Bool}
    {off o : Nat} (h : loopBody hao p nh fr off = .ret o) :
    walkFrom hao p nh fr off = .ok o := by
  rw [walkFrom]
  split
  · rename_i o2 ho; rw [ho] at h; injection h with h1; rw [h1]
  · rename_i e he; rw [he] at h; exact absurd h (by simp)
  · rename_i a b c hc; rw [hc] at h; exact absurd h (by simp)

/-- Unfolding `walkFrom` on a failing iteration. -/
theorem walkFrom_fail (hao : Nat → Bool) (p : Pkt) {nh : Nat} {fr : Bool}
    {off : Nat} {e : WalkError}
    (h : loopBody hao p nh fr off = .fail e) :
    walkFrom hao p nh fr off = .error e := by
  rw [walkFrom]
  split
  · rename_i o2 ho; rw [ho] at h; exact absurd h (by simp)
  · rename_i e2 he; rw [he] at h; injection h with h1; rw [h1]
  · rename_i a b c hc; rw [hc] at h; exact absurd h (by simp)

/-- `advance` on a state that passes both checks. -/
theorem advance_eq_next (p : Pkt) (fr : Bool) (off : Nat)
    (hpre : off + sizeof_ipv6_opt_hdr ≤ packet_len p)
    (hover : ipv6_optlen (byteAt p (off + 1)) + off < IPV6_MAXPLEN) :
    advance p fr off =
      .next (byteAt p off) fr (off + ipv6_optlen (byteAt p (off + 1))) := by
  unfold advance
  rw [if_neg (by omega), if_neg (by omega)]

/-- The loop body on a hop-by-hop header: keep walking. -/
theorem loopBody_hop (hao : Nat → Bool) (p : Pkt) (fr : Bool) {off : Nat}
    (hguard : off ≤ packet_len p) :
    loopBody hao p NEXTHDR_HOP fr off = advance p fr off := by
  unfold loopBody
  rw [if_pos hguard, if_pos rfl]

/-- The loop body on a routing header: set the flag and keep walking. -/
theorem loopBody_routing (hao : Nat → Bool) (p : Pkt) (fr : Bool) {off : Nat}
    (hguard : off ≤ packet_len p) :
    loopBody hao p NEXTHDR_ROUTING fr off = advance p true off := by
  unfold loopBody
  rw [if_pos hguard, if_neg (by decide), if_pos rfl]

/-- The loop body on a destination-options header with no home-address
option after a routing header: return the current offset. -/
theorem loopBody_dest_stop (hao : Nat → Bool) (p : Pkt) {off : Nat}
    (hguard : off ≤ packet_len p) (hhao : hao off = false) :
    loopBody hao p NEXTHDR_DEST true off = .ret off := by
  unfold loopBody
  rw [if_pos hguard, if_neg (by decide), if_neg (by decide), if_pos rfl,
    hhao]
  rfl

/-- The loop body on a destination-options header with no home-address
option and no routing header seen: keep walking. -/
theorem loopBody_dest_go (hao : Nat → Bool) (p : Pkt) {off : Nat}
    (hguard : off ≤ packet_len p) (hhao : hao off = false) :
    loopBody hao p NEXTHDR_DEST false off = advance p false off := by
  unfold loopBody
  rw [if_pos hguard, if_neg (by decide), if_neg (by decide), if_pos rfl,
    hhao]
  rfl

/-- The loop body on any other header type: return the current offset. -/
theorem loopBody_other (hao : Nat → Bool) (p : Pkt) {nh : Nat} (fr : Bool)
    {off : Nat} (hguard : off ≤ packet_len p)
    (h0 : nh ≠ NEXTHDR_HOP) (h43 : nh ≠ NEXTHDR_ROUTING)
    (h60 : nh ≠ NEXTHDR_DEST) :
    loopBody hao p nh fr off = .ret off := by
  unfold loopBody
  rw [if_pos hguard, if_neg h0, if_neg h43, if_neg h60]

/-- The loop guard fails: fall out of the loop with `-EINVAL`
(structured as `MalformedChain`). -/
theorem loopBody_guard_fail (hao : Nat → Bool) (p : Pkt) (nh : Nat)
    (fr : Bool) {off : Nat} (h : packet_len p < off) :
    loopBody hao p nh fr off = .fail .MalformedChain := by
  unfold loopBody
  rw [if_neg (by omega)]

/-- Stabilization of the fuel-indexed loop: once the fuel covers the
remaining captured bytes at 8 bytes per iteration, adding more fuel
cannot change the result — the bounded iteration already agrees with
the full loop. -/
theorem walkFuel_stable (hao : Nat → Bool) (p : Pkt) :
    ∀ (fuel : Nat) (nh : Nat) (fr : Bool) (off : Nat),
      packet_len p + 8 ≤ off + 8 * fuel →
      walkFuel hao p fuel nh fr off = walkFrom hao p nh fr off := by
  intro fuel
  induction fuel with
  | zero =>
    intro nh fr off hb
    have hl : loopBody hao p nh fr off = .fail .MalformedChain :=
      loopBody_guard_fail hao p nh fr (by omega)
    rw [walkFrom_fail hao p hl]
    rfl
  | succ f ih =>
    intro nh fr off hb
    rcases hl : loopBody hao p nh fr off with o | e | ⟨nh2, fr2, off2⟩
    · rw [walkFrom_ret hao p hl]
      unfold walkFuel
      rw [hl]
    · rw [walkFrom_fail hao p hl]
      unfold walkFuel
      rw [hl]
    · have hg := loopBody_next_ge hl
      rw [walkFrom_next hao p hl]
      unfold walkFuel
      rw [hl]
      exact ih nh2 fr2 off2 (by omega)

/-! ## Claim theorems -/

/-- Claim C1: for every namespace and address pair,
`__ipv6_select_ident` never returns 0 — when the allocator
(`ip_idents_reserve`) returns exactly 0 the function returns `2 ^ 31`
(only the high bit set), and any non-zero allocator value is returned
unchanged. -/
theorem claim_C1_ident_never_zero (env : IdentOracle) (net : Net)
    (dst src : Nat) :
    ((__ipv6_select_ident env net dst src).1 =
      if env.reserve
          (env.siphash (dst, src)
            (__ipv6_select_ident env net dst src).2.ip_id_key) 1 = 0
        then 2 ^ 31
        else env.reserve
          (env.siphash (dst, src)
            (__ipv6_select_ident env net dst src).2.ip_id_key) 1) ∧
    (__ipv6_select_ident env net dst src).1 ≠ 0 := by
  unfold __ipv6_select_ident
  dsimp only
  by_cases hr : env.reserve
      (env.siphash (dst, src)
        (if siphash_key_is_zero net.ip_id_key then env.randomKey
         else net.ip_id_key)) 1 = 0
  · constructor
    · split
      all_goals simp_all
    · split
      all_goals simp_all
  · constructor
    · split
      all_goals simp_all
    · split
      all_goals simp_all

/-- Claim C2: on a chain hop-by-hop → routing → destination-options
(with no home-address option) → anything, `ip6_find_1stfragopt` returns
the byte offset of the start of the destination-options header (a
routing header was seen earlier), not the upper-layer offset.  Here
`l1` and `l2` are the real byte lengths of the hop-by-hop and routing
headers. -/
theorem claim_C2_dest_after_routing (hao : Nat → Bool) (p : Pkt)
    (l1 l2 : Nat)
    (hl1 : l1 = ipv6_optlen (byteAt p 41))
    (hl2 : l2 = ipv6_optlen (byteAt p (40 + l1 + 1)))
    (h6 : byteAt p 6 = NEXTHDR_HOP)
    (h40 : byteAt p 40 = NEXTHDR_ROUTING)
    (hdest : byteAt p (40 + l1) = NEXTHDR_DEST)
    (hhao : hao (40 + l1 + l2) = false)
    (hfit : 40 + l1 + l2 ≤ packet_len p) :
    ip6_find_1stfragopt hao p = ((40 + l1 + l2 : Nat) : Int) := by
  have hge1 : 8 ≤ l1 := hl1 ▸ ipv6_optlen_ge _
  have hge2 : 8 ≤ l2 := hl2 ▸ ipv6_optlen_ge _
  have hle1 : l1 ≤ 2048 := hl1 ▸ ipv6_optlen_byte_le p 41
  have hle2 : l2 ≤ 2048 := hl2 ▸ ipv6_optlen_byte_le p _
  have e41 : (40 : Nat) + 1 = 41 := rfl
  have s1 : loopBody hao p NEXTHDR_HOP false 40 =
      .next (byteAt p 40) false (40 + l1) := by
    rw [loopBody_hop hao p false (by omega),
      advance_eq_next p false 40
        (by unfold sizeof_ipv6_opt_hdr; omega)
        (by rw [e41, ← hl1]; unfold IPV6_MAXPLEN; omega),
      e41, ← hl1]
  have s2 : loopBody hao p NEXTHDR_ROUTING false (40 + l1) =
      .next (byteAt p (40 + l1)) true (40 + l1 + l2) := by
    rw [loopBody_routing hao p false (by omega),
      advance_eq_next p true (40 + l1)
        (by unfold sizeof_ipv6_opt_hdr; omega)
        (by rw [← hl2]; unfold IPV6_MAXPLEN; omega),
      ← hl2]
  have s3 : loopBody hao p NEXTHDR_DEST true (40 + l1 + l2) =
      .ret (40 + l1 + l2) := loopBody_dest_stop hao p hfit hhao
  unfold ip6_find_1stfragopt sizeof_ipv6hdr
  rw [h6, walkFrom_next hao p s1, h40, walkFrom_next hao p s2, hdest,
    walkFrom_ret hao p s3]

/-- Witness for C2: a 60-byte capture whose chain is hop-by-hop (8
bytes at offset 40) → routing (8 bytes at offset 48) → destination
options at offset 56; the walk returns 56 with no home-address
option present. -/
theorem claim_C2_dest_after_routing_witness :
    ip6_find_1stfragopt (fun _ => false)
      ⟨((List.replicate 60 0).set 40 43).set 48 60⟩ = 56 :=
  claim_C2_dest_after_routing (fun _ => false)
    ⟨((List.replicate 60 0).set 40 43).set 48 60⟩ 8 8
    (by decide) (by decide) (by decide) (by decide) (by decide) rfl
    (by decide)

/-- Claim C3: on a chain hop-by-hop → destination-options (no
home-address option, no routing header seen) → upper-layer type, the
destination-options header is transparent and `ip6_find_1stfragopt`
returns the byte offset of the upper-layer header.  Here `l1` and `l2`
are the real byte lengths of the hop-by-hop and destination-options
headers. -/
theorem claim_C3_dest_transparent (hao : Nat → Bool) (p : Pkt)
    (l1 l2 : Nat)
    (hl1 : l1 = ipv6_optlen (byteAt p 41))
    (hl2 : l2 = ipv6_optlen (byteAt p (40 + l1 + 1)))
    (h6 : byteAt p 6 = NEXTHDR_HOP)
    (h40 : byteAt p 40 = NEXTHDR_DEST)
    (hhao : hao (40 + l1) = false)
    (hup0 : byteAt p (40 + l1) ≠ NEXTHDR_HOP)
    (hup43 : byteAt p (40 + l1) ≠ NEXTHDR_ROUTING)
    (hup60 : byteAt p (40 + l1) ≠ NEXTHDR_DEST)
    (hfit : 40 + l1 + l2 ≤ packet_len p) :
    ip6_find_1stfragopt hao p = ((40 + l1 + l2 : Nat) : Int) := by
  have hge1 : 8 ≤ l1 := hl1 ▸ ipv6_optlen_ge _
  have hge2 : 8 ≤ l2 := hl2 ▸ ipv6_optlen_ge _
  have hle1 : l1 ≤ 2048 := hl1 ▸ ipv6_optlen_byte_le p 41
  have hle2 : l2 ≤ 2048 := hl2 ▸ ipv6_optlen_byte_le p _
  have e41 : (40 : Nat) + 1 = 41 := rfl
  have s1 : loopBody hao p NEXTHDR_HOP false 40 =
      .next (byteAt p 40) false (40 + l1) := by
    rw [loopBody_hop hao p false (by omega),
      advance_eq_next p false 40
        (by unfold sizeof_ipv6_opt_hdr; omega)
        (by rw [e41, ← hl1]; unfold IPV6_MAXPLEN; omega),
      e41, ← hl1]
  have s2 : loopBody hao p NEXTHDR_DEST false (40 + l1) =
      .next (byteAt p (40 + l1)) false (40 + l1 + l2) := by
    rw [loopBody_dest_go hao p (by omega) hhao,
      advance_eq_next p false (40 + l1)
        (by unfold sizeof_ipv6_opt_hdr; omega)
        (by rw [← hl2]; unfold IPV6_MAXPLEN; omega),
      ← hl2]
  have s3 : loopBody hao p (byteAt p (40 + l1)) false (40 + l1 + l2) =
      .ret (40 + l1 + l2) :=
    loopBody_other hao p false hfit hup0 hup43 hup60
  unfold ip6_find_1stfragopt sizeof_ipv6hdr
  rw [h6, walkFrom_next hao p s1, h40, walkFrom_next hao p s2,
    walkFrom_ret hao p s3]

/-- Witness for C3: a 60-byte capture whose chain is hop-by-hop (8
bytes at offset 40) → destination options (8 bytes at offset 48) →
upper-layer type 6 (TCP) at offset 56; the walk returns 56. -/
theorem claim_C3_dest_transparent_witness :
    ip6_find_1stfragopt (fun _ => false)
      ⟨((List.replicate 60 0).set 40 60).set 48 6⟩ = 56 :=
  claim_C3_dest_transparent (fun _ => false)
    ⟨((List.replicate 60 0).set 40 60).set 48 6⟩ 8 8
    (by decide) (by decide) (by decide) (by decide) rfl
    (by decide) (by decide) (by decide) (by decide)

/-- Claim C4: in a continuing step of the walk (with the loop guard and
the prefix bounds check passed, and the 8-byte offset alignment that
holds on every reachable state), the step fails with `LengthOverflow`
exactly when advancing the offset by the header's real byte length
would exceed `IPV6_MAXPLEN`; otherwise this check does not fail.  The
code tests `len + offset >= IPV6_MAXPLEN`, but `len + offset` is a
multiple of 8 while `IPV6_MAXPLEN = 65535` is odd, so equality cannot
occur and `>=` coincides with `>`. -/
theorem claim_C4_length_overflow_check (hao : Nat → Bool) (p : Pkt)
    (nh : Nat) (fr : Bool) (off : Nat)
    (hcont : nh = NEXTHDR_HOP ∨ nh = NEXTHDR_ROUTING ∨
      (nh = NEXTHDR_DEST ∧ (hao off = true ∨ fr = false)))
    (hguard : off ≤ packet_len p)
    (hpre : off + sizeof_ipv6_opt_hdr ≤ packet_len p)
    (hoff8 : off % 8 = 0) :
    loopBody hao p nh fr off = .fail .LengthOverflow ↔
      IPV6_MAXPLEN < ipv6_optlen (byteAt p (off + 1)) + off := by
  have hm := ipv6_optlen_mod8 (byteAt p (off + 1))
  have key : ∀ fr3 : Bool, (advance p fr3 off = .fail .LengthOverflow ↔
      IPV6_MAXPLEN < ipv6_optlen (byteAt p (off + 1)) + off) := by
    intro fr3
    unfold advance
    rw [if_neg (by omega)]
    by_cases hov : ipv6_optlen (byteAt p (off + 1)) + off ≥ IPV6_MAXPLEN
    · rw [if_pos hov]
      constructor
      · intro _
        unfold IPV6_MAXPLEN at hov hm ⊢
        omega
      · intro _; rfl
    · rw [if_neg hov]
      constructor
      · intro hc; exact absurd hc (by simp)
      · intro hlt; omega
  rcases hcont with h | h | ⟨h, hd⟩
  · rw [h, loopBody_hop hao p fr hguard]; exact key fr
  · rw [h, loopBody_routing hao p fr hguard]; exact key true
  · subst h
    unfold loopBody
    rw [if_pos hguard, if_neg (by decide), if_neg (by decide), if_pos rfl]
    by_cases hh : hao off = true
    · rw [hh, if_pos rfl]; exact key fr
    · have hh2 : hao off = false := by
        cases hx : hao off
        · rfl
        · exact absurd hx hh
      rw [hh2, if_neg (by simp)]
      rcases hd with hd | hd
      · exact absurd hd hh
      · subst hd
        rw [if_neg (by simp)]
        exact key false

/-- Witness for C4: a hop-by-hop step at offset 40 of a 48-byte capture
with an 8-byte header; both sides of the equivalence are false. -/
theorem claim_C4_length_overflow_check_witness :
    loopBody (fun _ => false) ⟨List.replicate 48 0⟩ NEXTHDR_HOP false 40 =
        .fail .LengthOverflow ↔
      IPV6_MAXPLEN < ipv6_optlen (byteAt ⟨List.replicate 48 0⟩ 41) + 40 :=
  claim_C4_length_overflow_check (fun _ => false) ⟨List.replicate 48 0⟩
    NEXTHDR_HOP false 40 (Or.inl rfl) (by decide) (by decide) (by decide)

/-- Claim C5: when the walk reaches a continuing header whose two-byte
option-header prefix does not fit inside the captured region
(`offset + 2 > packet_len`), the walk fails with `MalformedChain`
instead of reading past the capture. -/
theorem claim_C5_truncated_prefix (hao : Nat → Bool) (p : Pkt)
    (nh : Nat) (fr : Bool) (off : Nat)
    (hcont : nh = NEXTHDR_HOP ∨ nh = NEXTHDR_ROUTING ∨
      (nh = NEXTHDR_DEST ∧ (hao off = true ∨ fr = false)))
    (hguard : off ≤ packet_len p)
    (hpre : packet_len p < off + sizeof_ipv6_opt_hdr) :
    walkFrom hao p nh fr off = .error .MalformedChain := by
  have key : ∀ fr3 : Bool, advance p fr3 off = .fail .MalformedChain := by
    intro fr3
    unfold advance
    rw [if_pos (by omega)]
  apply walkFrom_fail
  rcases hcont with h | h | ⟨h, hd⟩
  · rw [h, loopBody_hop hao p fr hguard]; exact key fr
  · rw [h, loopBody_routing hao p fr hguard]; exact key true
  · subst h
    unfold loopBody
    rw [if_pos hguard, if_neg (by decide), if_neg (by decide), if_pos rfl]
    by_cases hh : hao off = true
    · rw [hh, if_pos rfl]; exact key fr
    · have hh2 : hao off = false := by
        cases hx : hao off
        · rfl
        · exact absurd hx hh
      rw [hh2, if_neg (by simp)]
      rcases hd with hd | hd
      · exact absurd hd hh
      · subst hd
        rw [if_neg (by simp)]
        exact key false

/-- Witness for C5: a 41-byte capture whose hop-by-hop header at
offset 40 has no room for its 2-byte prefix. -/
theorem claim_C5_truncated_prefix_witness :
    walkFrom (fun _ => false) ⟨List.replicate 41 0⟩ NEXTHDR_HOP false 40 =
      .error .MalformedChain :=
  claim_C5_truncated_prefix (fun _ => false) ⟨List.replicate 41 0⟩
    NEXTHDR_HOP false 40 (Or.inl rfl) (by decide) (by decide)

/-- Claim C6: the walk terminates — every header's real byte length is
at least 8 (a declared length of 0 maps to the 8-byte minimum), each
iteration strictly increases the offset, and, since the offset is
checked against the captured length, `packet_len / 8 + 1` iterations of
the loop body already compute the full walk's answer on every packet,
with no cycle-detection structure. -/
theorem claim_C6_walk_terminates :
    (∀ b : Nat, 8 ≤ ipv6_optlen b) ∧
    ∀ (hao : Nat → Bool) (p : Pkt),
      walkFuel hao p (packet_len p / 8 + 1) (byteAt p 6) false
          sizeof_ipv6hdr =
        walkFrom hao p (byteAt p 6) false sizeof_ipv6hdr := by
  refine ⟨ipv6_optlen_ge, fun hao p => ?_⟩
  apply walkFuel_stable
  unfold sizeof_ipv6hdr
  omega

/-- Counterexample to claim C7 as stated: at `skb->len = 2 ^ 31 + 100`
the length minus the base header exceeds `IPV6_MAXPLEN`, so the claim
prescribes writing zero — but the C's 32-bit `int` subtraction wraps
negative, the `> IPV6_MAXPLEN` test is false, and `htons` stores the
low 16 bits of the wrapped value: 60, not zero. -/
theorem claim_C7_payload_len_cex :
    ¬ ((__ip6_local_out (fun _ => 1) ⟨2 ^ 31 + 100, 0, 0, 0⟩).2.payload_len =
        if IPV6_MAXPLEN < (2 ^ 31 + 100) - sizeof_ipv6hdr then 0
        else (2 ^ 31 + 100) - sizeof_ipv6hdr) ∧
    (__ip6_local_out (fun _ => 1) ⟨2 ^ 31 + 100, 0, 0, 0⟩).2.payload_len =
      60 := by
  constructor
  · decide
  · decide

/-- Claim C7 (amended): for every packet whose total length covers the
40-byte base header and stays below `2 ^ 31 + 40` — so the 32-bit
signed subtraction `skb->len - 40` cannot wrap — `__ip6_local_out`
writes zero into the payload-length field when the length minus the
base header exceeds `IPV6_MAXPLEN`, and the computed value otherwise. -/
theorem claim_C7_payload_len (hook : Skb6 → Int) (skb : Skb6)
    (h40 : sizeof_ipv6hdr ≤ skb.len)
    (hwrap : skb.len < 2 ^ 31 + sizeof_ipv6hdr) :
    (__ip6_local_out hook skb).2.payload_len =
      if IPV6_MAXPLEN < skb.len - sizeof_ipv6hdr then 0
      else skb.len - sizeof_ipv6hdr := by
  unfold __ip6_local_out toInt32 IPV6_MAXPLEN sizeof_ipv6hdr at *
  dsimp only
  have hmod : (skb.len + 2 ^ 32 - 40) % 2 ^ 32 = skb.len - 40 := by omega
  rw [hmod, if_pos (show skb.len - 40 < 2 ^ 31 by omega)]
  split
  · rename_i hgt
    rw [if_pos (by omega)]
    rfl
  · rename_i hle
    rw [if_neg (by omega)]
    omega

/-- Witness for the amended C7: a 100-byte packet gets payload
length 60. -/
theorem claim_C7_payload_len_witness :
    (__ip6_local_out (fun _ => 1) ⟨100, 0, 0, 0⟩).2.payload_len = 60 :=
  claim_C7_payload_len (fun _ => 1) ⟨100, 0, 0, 0⟩ (by decide) (by decide)

/-- Claim C8: `__ipv6_select_ident` fills the per-namespace hash seed
with the random bytes only when the stored seed is all-zero, and a
non-zero seed is preserved unchanged across every sequence of
identifier-generation calls. -/
theorem claim_C8_seed_fill_once :
    (∀ (env : IdentOracle) (net : Net) (dst src : Nat),
      (__ipv6_select_ident env net dst src).2.ip_id_key =
        if net.ip_id_key = 0 then env.randomKey else net.ip_id_key) ∧
    (∀ (net : Net) (calls : List (IdentOracle × Nat × Nat)),
      net.ip_id_key ≠ 0 →
      (runIdents calls net).ip_id_key = net.ip_id_key) := by
  have fill : ∀ (env : IdentOracle) (net : Net) (dst src : Nat),
      (__ipv6_select_ident env net dst src).2.ip_id_key =
        if net.ip_id_key = 0 then env.randomKey else net.ip_id_key := by
    intro env net dst src
    unfold __ipv6_select_ident siphash_key_is_zero
    dsimp only
    split
    · rename_i hz
      rw [if_pos (by simpa using hz)]
    · rename_i hz
      rw [if_neg (by simpa using hz)]
  refine ⟨fill, fun net calls => ?_⟩
  induction calls generalizing net with
  | nil => intro _; rfl
  | cons c cs ih =>
    intro hnz
    unfold runIdents at ih ⊢
    rw [List.foldl_cons]
    have hstep : ((__ipv6_select_ident c.1 net c.2.1 c.2.2).2).ip_id_key =
        net.ip_id_key := by
      rw [fill]
      rw [if_neg hnz]
    rw [ih _ (by rw [hstep]; exact hnz), hstep]

/-- Witness for C8: two generation calls with arbitrary oracles leave a
non-zero seed (5) unchanged. -/
theorem claim_C8_seed_fill_once_witness :
    (runIdents [(⟨0, fun _ _ => 0, fun _ _ => 0⟩, 1, 2),
                (⟨9, fun _ _ => 3, fun _ _ => 4⟩, 5, 6)] ⟨5⟩).ip_id_key =
      5 :=
  claim_C8_seed_fill_once.2 ⟨5⟩
    [(⟨0, fun _ _ => 0, fun _ _ => 0⟩, 1, 2),
     (⟨9, fun _ _ => 3, fun _ _ => 4⟩, 5, 6)] (by decide)

/-- Claim C9: when the captured bytes do not cover the 32-byte
two-address region at `network_offset + offsetof(ipv6hdr, saddr)`,
`ipv6_proxy_select_ident` returns with no error and no state change —
in particular `ip6_frag_id` is left untouched. -/
theorem claim_C9_proxy_noop (env : IdentOracle) (net : Net)
    (skb : SkbProxy)
    (h : skb.bytes.length < skb.network_offset + saddr_off + 32) :
    ipv6_proxy_select_ident env net skb = (net, skb) := by
  unfold ipv6_proxy_select_ident skb_header_pointer
  rw [if_neg (by omega)]

/-- Witness for C9: an empty capture leaves namespace and packet (with
`ip6_frag_id = 7`) exactly as they were. -/
theorem claim_C9_proxy_noop_witness :
    ipv6_proxy_select_ident ⟨0, fun _ _ => 0, fun _ _ => 0⟩ ⟨3⟩
        ⟨[], 0, 7⟩ =
      (⟨3⟩, ⟨[], 0, 7⟩) :=
  claim_C9_proxy_noop ⟨0, fun _ _ => 0, fun _ _ => 0⟩ ⟨3⟩ ⟨[], 0, 7⟩
    (by decide)

/-- Claim C10: `ip6_find_1stfragopt` yields a negative result exactly
when the structured walk fails (with either `MalformedChain` or
`LengthOverflow`), and the only negative value it ever yields is
`-EINVAL` — so the caller cannot distinguish the two failure kinds. -/
theorem claim_C10_single_error_value (hao : Nat → Bool) (p : Pkt) :
    (ip6_find_1stfragopt hao p < 0 ↔
      walkFrom hao p (byteAt p 6) false sizeof_ipv6hdr =
        .error .MalformedChain ∨
      walkFrom hao p (byteAt p 6) false sizeof_ipv6hdr =
        .error .LengthOverflow) ∧
    (ip6_find_1stfragopt hao p = -(EINVAL : Int) ∨
      0 ≤ ip6_find_1stfragopt hao p) := by
  unfold ip6_find_1stfragopt
  rcases hw : walkFrom hao p (byteAt p 6) false sizeof_ipv6hdr with e | o
  · dsimp only
    cases e
    · exact ⟨⟨fun _ => Or.inl rfl, fun _ => by unfold EINVAL; decide⟩,
        Or.inl rfl⟩
    · exact ⟨⟨fun _ => Or.inr rfl, fun _ => by unfold EINVAL; decide⟩,
        Or.inl rfl⟩
  · dsimp only
    constructor
    · constructor
      · intro hlt
        exact absurd hlt (by omega)
      · intro hor
        rcases hor with hc | hc
        all_goals exact absurd hc (by simp)
    · right
      omega

end OutputCore
